import Mathlib

/-!
# Verification of the file-hosting storage layer (`src/app.py`)

A shallow embedding of the storage-relevant parts of the repository's single
source file `app.py`: the extension allow-list, the SHA-256 checksum helper,
the SQLite-backed catalog (`FileHostingDB`), and the upload / raw / download
request handlers.  Bytes are naturals below 256, strings are `List Char`,
the filesystem is a partial map from path to byte list, and the catalog is a
record of three row lists mirroring the `files`, `file_versions` and
`access_logs` tables.
-/

namespace Update

/-! ## 32-bit arithmetic helpers (for SHA-256) -/

/-- Truncate to 32 bits. -/
def w32 (x : Nat) : Nat := x % 4294967296

/-- 32-bit modular addition. -/
def add32 (a b : Nat) : Nat := (a + b) % 4294967296

/-- Right rotation of a 32-bit word by `n` places. -/
def rotr32 (n x : Nat) : Nat := w32 ((x >>> n) ||| (x <<< (32 - n)))

/-- Bitwise complement within 32 bits (valid for `x < 2^32`). -/
def not32 (x : Nat) : Nat := 4294967295 - x

/-! ## SHA-256 (the digest `hashlib.sha256` computes) -/

/-- The SHA-256 round constants. -/
def sha256K : List Nat :=
  [1116352408, 1899447441, 3049323471, 3921009573, 961987163, 1508970993,
   2453635748, 2870763221, 3624381080, 310598401, 607225278, 1426881987,
   1925078388, 2162078206, 2614888103, 3248222580, 3835390401, 4022224774,
   264347078, 604807628, 770255983, 1249150122, 1555081692, 1996064986,
   2554220882, 2821834349, 2952996808, 3210313671, 3336571891, 3584528711,
   113926993, 338241895, 666307205, 773529912, 1294757372, 1396182291,
   1695183700, 1986661051, 2177026350, 2456956037, 2730485921, 2820302411,
   3259730800, 3345764771, 3516065817, 3600352804, 4094571909, 275423344,
   430227734, 506948616, 659060556, 883997877, 958139571, 1322822218,
   1537002063, 1747873779, 1955562222, 2024104815, 2227730452, 2361852424,
   2428436474, 2756734187, 3204031479, 3329325298]

/-- The SHA-256 initial hash value. -/
def sha256Init : List Nat :=
  [1779033703, 3144134277, 1013904242, 2773480762,
   1359893119, 2600822924, 528734635, 1541459225]

/-- SHA-256 Σ₀. -/
def bigSigma0 (x : Nat) : Nat := rotr32 2 x ^^^ rotr32 13 x ^^^ rotr32 22 x

/-- SHA-256 Σ₁. -/
def bigSigma1 (x : Nat) : Nat := rotr32 6 x ^^^ rotr32 11 x ^^^ rotr32 25 x

/-- SHA-256 σ₀. -/
def smallSigma0 (x : Nat) : Nat := rotr32 7 x ^^^ rotr32 18 x ^^^ (x >>> 3)

/-- SHA-256 σ₁. -/
def smallSigma1 (x : Nat) : Nat := rotr32 17 x ^^^ rotr32 19 x ^^^ (x >>> 10)

/-- SHA-256 Ch. -/
def chFn (x y z : Nat) : Nat := (x &&& y) ^^^ (not32 x &&& z)

/-- SHA-256 Maj. -/
def majFn (x y z : Nat) : Nat := (x &&& y) ^^^ (x &&& z) ^^^ (y &&& z)

/-- Extend a 16-word message block to the 64-word schedule, appending
`fuel` further words. -/
def extendW (fuel : Nat) (w : List Nat) : List Nat :=
  match fuel with
  | 0 => w
  | n + 1 =>
    let t := w.length
    let next := add32 (add32 (smallSigma1 (w.getD (t - 2) 0)) (w.getD (t - 7) 0))
                      (add32 (smallSigma0 (w.getD (t - 15) 0)) (w.getD (t - 16) 0))
    extendW n (w ++ [next])

/-- One SHA-256 compression round on the 8-word working state. -/
def compressStep (st : List Nat) (k w : Nat) : List Nat :=
  match st with
  | [a, b, c, d, e, f, g, h] =>
    let t1 := add32 h (add32 (bigSigma1 e) (add32 (chFn e f g) (add32 k w)))
    let t2 := add32 (bigSigma0 a) (majFn a b c)
    [add32 t1 t2, a, b, c, add32 d t1, e, f, g]
  | _ => st

/-- Compress one 16-word block into the running hash value. -/
def compressBlock (h : List Nat) (block16 : List Nat) : List Nat :=
  let w := extendW 48 block16
  let st := (sha256K.zip w).foldl (fun s kw => compressStep s kw.1 kw.2) h
  h.zipWith add32 st

/-- A natural as 8 big-endian bytes (the SHA-256 length field). -/
def be64 (n : Nat) : List Nat :=
  [(n >>> 56) &&& 255, (n >>> 48) &&& 255, (n >>> 40) &&& 255, (n >>> 32) &&& 255,
   (n >>> 24) &&& 255, (n >>> 16) &&& 255, (n >>> 8) &&& 255, n &&& 255]

/-- SHA-256 padding: `128`, zeros to 56 mod 64, then the bit length. -/
def padMessage (m : List Nat) : List Nat :=
  let k := (119 - m.length % 64) % 64
  m ++ 128 :: List.replicate k 0 ++ be64 (8 * m.length)

/-- Group bytes into big-endian 32-bit words. -/
def bytesToWords : List Nat → List Nat
  | b0 :: b1 :: b2 :: b3 :: rest =>
    (((b0 * 256 + b1) * 256 + b2) * 256 + b3) :: bytesToWords rest
  | _ => []

/-- Split a list into chunks of `n` elements (the last one may be short);
this is how `calculate_checksum` consumes the file, `f.read(4096)` at a
time. -/
def readChunks (n : Nat) (l : List α) : List (List α) :=
  if l.isEmpty ∨ n = 0 then [] else l.take n :: readChunks n (l.drop n)
termination_by l.length
decreasing_by
  rename_i h
  push_neg at h
  have hl : l ≠ [] := by simpa [List.isEmpty_iff] using h.1
  have : 0 < l.length := List.length_pos.mpr hl
  simp only [List.length_drop]
  omega

/-- The SHA-256 digest of a byte string, as eight 32-bit words. -/
def sha256Words (m : List Nat) : List Nat :=
  (readChunks 64 (padMessage m)).foldl (fun h blk => compressBlock h (bytesToWords blk)) sha256Init

/-- Lower-case hex digit for a nibble. -/
def hexDigitChar (n : Nat) : Char :=
  if n < 10 then Char.ofNat (48 + n) else Char.ofNat (87 + n)

/-- A 32-bit word as 8 lower-case hex characters. -/
def wordToHex (w : Nat) : List Char :=
  [hexDigitChar ((w >>> 28) &&& 15), hexDigitChar ((w >>> 24) &&& 15),
   hexDigitChar ((w >>> 20) &&& 15), hexDigitChar ((w >>> 16) &&& 15),
   hexDigitChar ((w >>> 12) &&& 15), hexDigitChar ((w >>> 8) &&& 15),
   hexDigitChar ((w >>> 4) &&& 15), hexDigitChar (w &&& 15)]

/-- The SHA-256 hex digest of a byte string — what
`hashlib.sha256(data).hexdigest()` returns. -/
def sha256_hexdigest (m : List Nat) : List Char :=
  ((sha256Words m).map wordToHex).flatten

/-- The running state of a `hashlib.sha256()` object is determined by the
byte sequence fed to it so far; `update` appends to that sequence. -/
def sha256_update (st : List Nat) (block : List Nat) : List Nat := st ++ block

/-- `calculate_checksum` (app.py:446-454): stream the file in 4096-byte
blocks through `sha256_hash.update`, then take the hex digest.  The file
content is passed as the byte list read from disk. -/
def calculate_checksum (content : List Nat) : List Char :=
  sha256_hexdigest ((readChunks 4096 content).foldl sha256_update [])

/-! ## Strings and the extension allow-list -/

/-- ASCII lower-casing of one character (`str.lower()` restricted to ASCII,
which is also exactly the case folding SQLite's `LIKE` applies). -/
def lowerChar (c : Char) : Char :=
  if 'A' ≤ c ∧ c ≤ 'Z' then Char.ofNat (c.toNat + 32) else c

/-- Lower-case a string. -/
def lowerStr (s : List Char) : List Char := s.map lowerChar

/-- `ALLOWED_EXTENSIONS` (app.py:28). -/
def ALLOWED_EXTENSIONS : List (List Char) :=
  ["txt".toList, "json".toList, "conf".toList, "config".toList, "yaml".toList,
   "yml".toList, "xml".toList, "ini".toList, "cfg".toList, "properties".toList]

/-- `MAX_CONTENT_LENGTH` (app.py:31): 10 MiB. -/
def MAX_CONTENT_LENGTH : Nat := 10 * 1024 * 1024

/-- `ADMIN_ID` default (app.py:21). -/
def ADMIN_ID : Nat := 6493515910

/-- The characters after the last `'.'` — `filename.rsplit('.', 1)[1]` when a
dot is present (the whole string when not; callers guard on the dot). -/
def afterLastDot (s : List Char) : List Char :=
  (s.reverse.takeWhile (fun c => c ≠ '.')).reverse

/-- `allowed_file` (app.py:441-444): `'.' in filename and
filename.rsplit('.', 1)[1].lower() in ALLOWED_EXTENSIONS`. -/
def allowed_file (filename : List Char) : Bool :=
  filename.contains '.' && ALLOWED_EXTENSIONS.contains (lowerStr (afterLastDot filename))

/-- werkzeug `secure_filename`, modelled from its documented behaviour on
ASCII input: path separators become spaces, whitespace-separated words are
joined with `_`, characters outside `[A-Za-z0-9_.-]` are removed, and
leading/trailing `.`/`_` are stripped.  (Used by the upload handlers; no
claim depends on its fine structure.) -/
def secure_filename (s : List Char) : List Char :=
  let spaced := s.map (fun c => if c = '/' ∨ c = Char.ofNat 92 ∨ c.isWhitespace then ' ' else c)
  let joined := (((spaced.splitOn ' ').filter (fun w => ¬ w.isEmpty)).intersperse ['_']).flatten
  let kept := joined.filter (fun c => c.isAlphanum ∨ c = '.' ∨ c = '-' ∨ c = '_')
  let stripped := (kept.dropWhile (fun c => c = '.' ∨ c = '_')).reverse
  (stripped.dropWhile (fun c => c = '.' ∨ c = '_')).reverse

/-! ## SQLite `LIKE` -/

/-- SQLite `LIKE` pattern matching: `%` matches any run of characters
(tried here as every suffix of the rest of the string), `_` matches any
single character, and everything else matches one character up to ASCII
case folding.  `search_files` builds its patterns as `f'%{query}%'`, so
wildcard characters inside the query are live. -/
def likeMatch : List Char → List Char → Bool
  | [], s => s.isEmpty
  | p :: ps, s =>
    if p = '%' then
      s.tails.any (fun t => likeMatch ps t)
    else
      match s with
      | [] => false
      | c :: t =>
        (if p = '_' then true else decide (lowerChar p = lowerChar c)) && likeMatch ps t

/-- The pattern `f'%{query}%'` that `search_files` passes to `LIKE`. -/
def pctPat (q : List Char) : List Char := '%' :: (q ++ ['%'])

/-- The spec-level match predicate: the query occurs in the field as a
case-insensitive substring. -/
def containsCI (q s : List Char) : Bool := decide ((lowerStr q) <:+: (lowerStr s))

/-! ## The catalog (`FileHostingDB`) -/

/-- One row of the `files` table (app.py:59-81).  Timestamps are naturals. -/
structure FileRow where
  id : Nat
  filename : List Char
  original_filename : List Char
  file_type : List Char
  file_size : Nat
  version : List Char
  storage_path : List Char
  public_url : List Char
  raw_url : List Char
  download_url : List Char
  release_notes : List Char
  checksum : List Char
  uploader_id : Nat
  uploader_name : List Char
  created_at : Nat
  expires_at : Nat
  is_active : Bool
  download_count : Nat
  last_download : Option Nat
deriving DecidableEq, Repr

/-- One row of the `file_versions` table (app.py:84-92). -/
structure VersionRow where
  id : Nat
  filename : List Char
  version : List Char
  storage_path : List Char
  raw_url : List Char
  created_at : Nat
deriving DecidableEq, Repr

/-- One row of the `access_logs` table (app.py:96-106). -/
structure AccessRow where
  id : Nat
  file_id : Nat
  ip_address : List Char
  user_agent : List Char
  referrer : Option (List Char)
  action : List Char
  accessed_at : Nat
deriving DecidableEq, Repr

/-- The `file_data` dict the upload handlers pass to `add_file`. -/
structure FileData where
  filename : List Char
  original_filename : List Char
  file_type : List Char
  file_size : Nat
  version : List Char
  storage_path : List Char
  public_url : List Char
  raw_url : List Char
  download_url : List Char
  release_notes : List Char
  checksum : List Char
  uploader_id : Nat
  uploader_name : List Char
deriving DecidableEq, Repr

/-- The catalog state: the three tables in insertion (rowid) order plus the
`AUTOINCREMENT` counters. -/
structure FileDB where
  files : List FileRow
  file_versions : List VersionRow
  access_logs : List AccessRow
  next_file_id : Nat
  next_version_id : Nat
  next_log_id : Nat
deriving DecidableEq, Repr

/-- The empty catalog. -/
def FileDB.empty : FileDB :=
  { files := [], file_versions := [], access_logs := [],
    next_file_id := 1, next_version_id := 1, next_log_id := 1 }

/-- A fault point inside `add_file`: either of the two `INSERT`s or the
final `commit` can be rejected by the underlying store; `noFault` is the
normal path. -/
inductive DbFault where
  | noFault
  | filesInsertFault
  | versionsInsertFault
  | commitFault
deriving DecidableEq, Repr

/-- The `files` row built by `add_file`'s first `INSERT` (column defaults:
`created_at = now`, `expires_at = now + 365 days`, `is_active = 1`,
`download_count = 0`, `last_download = NULL`). -/
def fileRowOf (db : FileDB) (fd : FileData) (now : Nat) : FileRow :=
  { id := db.next_file_id
    filename := fd.filename
    original_filename := fd.original_filename
    file_type := fd.file_type
    file_size := fd.file_size
    version := fd.version
    storage_path := fd.storage_path
    public_url := fd.public_url
    raw_url := fd.raw_url
    download_url := fd.download_url
    release_notes := fd.release_notes
    checksum := fd.checksum
    uploader_id := fd.uploader_id
    uploader_name := fd.uploader_name
    created_at := now
    expires_at := now + 365 * 86400
    is_active := true
    download_count := 0
    last_download := none }

/-- The `file_versions` row built by `add_file`'s second `INSERT` — keyed by
the record's `original_filename`. -/
def versionRowOf (db : FileDB) (fd : FileData) (now : Nat) : VersionRow :=
  { id := db.next_version_id
    filename := fd.original_filename
    version := fd.version
    storage_path := fd.storage_path
    raw_url := fd.raw_url
    created_at := now }

/-- `FileHostingDB.add_file` (app.py:133-177): insert one `files` row and
one `file_versions` row, then commit; any fault before the commit leaves
the durable state unchanged (`except` path returns `False` and nothing was
committed). -/
def add_file (db : FileDB) (fd : FileData) (now : Nat) (fault : DbFault) : FileDB × Bool :=
  match fault with
  | .noFault =>
    ({ db with
        files := db.files ++ [fileRowOf db fd now]
        file_versions := db.file_versions ++ [versionRowOf db fd now]
        next_file_id := db.next_file_id + 1
        next_version_id := db.next_version_id + 1 }, true)
  | _ => (db, false)

/-- `FileHostingDB.get_file_by_filename` (app.py:215-249):
`SELECT ... FROM files WHERE filename = ?` with `fetchone`. -/
def get_file_by_filename (db : FileDB) (filename : List Char) : Option FileRow :=
  db.files.find? (fun r => r.filename = filename)

/-- `FileHostingDB.get_file_by_id` (app.py:179-213). -/
def get_file_by_id (db : FileDB) (file_id : Nat) : Option FileRow :=
  db.files.find? (fun r => r.id = file_id)

/-- The ordering `ORDER BY created_at DESC` sorts by. -/
def newerRel : FileRow → FileRow → Prop := fun a b => b.created_at ≤ a.created_at

instance : DecidableRel newerRel := fun _ _ => Nat.decLe _ _

instance : IsTotal FileRow newerRel :=
  ⟨fun a b => by unfold newerRel; exact Nat.le_total _ _⟩

instance : IsTrans FileRow newerRel :=
  ⟨fun a b c hab hbc => by unfold newerRel at *; omega⟩

/-- `FileHostingDB.get_all_files` (app.py:251-282):
`SELECT ... FROM files ORDER BY created_at DESC`.  SQLite scans the table
in rowid order and sorts only on the `ORDER BY` key, so rows with equal
`created_at` keep their insertion order; a stable sort by `created_at`
descending reproduces that. -/
def get_all_files (db : FileDB) : List FileRow :=
  db.files.insertionSort newerRel

/-- The `WHERE` clause of `search_files`: `is_active = 1 AND
(original_filename LIKE ? OR version LIKE ? OR release_notes LIKE ?)` with
each pattern `f'%{query}%'`. -/
def searchPred (q : List Char) (r : FileRow) : Bool :=
  r.is_active &&
    (likeMatch (pctPat q) r.original_filename ||
     likeMatch (pctPat q) r.version ||
     likeMatch (pctPat q) r.release_notes)

/-- `FileHostingDB.search_files` (app.py:385-413). -/
def search_files (db : FileDB) (q : List Char) : List FileRow :=
  (db.files.filter (searchPred q)).insertionSort newerRel

/-- `FileHostingDB.record_download` (app.py:284-305): one transaction that
bumps `download_count`, stamps `last_download`, and appends a `download`
access-log row. -/
def record_download (db : FileDB) (file_id : Nat) (ip ua : List Char) (now : Nat) : FileDB :=
  { db with
    files := db.files.map (fun r =>
      if r.id = file_id then
        { r with download_count := r.download_count + 1, last_download := some now }
      else r)
    access_logs := db.access_logs ++
      [{ id := db.next_log_id, file_id := file_id, ip_address := ip,
         user_agent := ua, referrer := none, action := "download".toList,
         accessed_at := now }]
    next_log_id := db.next_log_id + 1 }

/-- `FileHostingDB.record_view` (app.py:307-318). -/
def record_view (db : FileDB) (file_id : Nat) (ip ua : List Char) (now : Nat) : FileDB :=
  { db with
    access_logs := db.access_logs ++
      [{ id := db.next_log_id, file_id := file_id, ip_address := ip,
         user_agent := ua, referrer := none, action := "view".toList,
         accessed_at := now }]
    next_log_id := db.next_log_id + 1 }

/-- `FileHostingDB.get_file_versions` (app.py:416-437):
`SELECT ... FROM file_versions WHERE filename = ? ORDER BY created_at DESC`. -/
def get_file_versions (db : FileDB) (filename : List Char) : List VersionRow :=
  (db.file_versions.filter (fun v => v.filename = filename)).insertionSort
    (fun a b => b.created_at ≤ a.created_at)

/-! ## The content store (files under `UPLOAD_FOLDER`) -/

/-- The filesystem under the storage root: a partial map from path to file
bytes. -/
def Fs : Type := List Char → Option (List Nat)

/-- The empty storage root. -/
def Fs.empty : Fs := fun _ => none

/-- `file.save(storage_path)` — write (or overwrite) the bytes at a path. -/
def fsWrite (fs : Fs) (path : List Char) (bytes : List Nat) : Fs :=
  fun q => if q = path then some bytes else fs q

/-- `storage_path.unlink()` guarded by `storage_path.exists()`. -/
def fsDelete (fs : Fs) (path : List Char) : Fs :=
  fun q => if q = path then none else fs q

/-- `UPLOAD_FOLDER` (app.py:26). -/
def UPLOAD_FOLDER : List Char := "uploads".toList

/-- `UPLOAD_FOLDER / unique_filename`. -/
def storagePathOf (unique_filename : List Char) : List Char :=
  UPLOAD_FOLDER ++ '/' :: unique_filename

/-- `FileHostingDB.generate_unique_filename` (app.py:123-131):
`f"{timestamp}_{random_str}.{ext}"`, dropping the dot and extension when the
original name has none.  The epoch timestamp and the 8-character random
token are inputs here (`time.time()` and `secrets.choice` in the code). -/
def generate_unique_filename (original_filename : List Char) (timestamp : Nat)
    (random_str : List Char) : List Char :=
  let ext := if original_filename.contains '.' then afterLastDot original_filename else []
  let base := (Nat.toDigits 10 timestamp) ++ '_' :: random_str
  if ext.isEmpty then base else base ++ '.' :: ext

/-! ## The upload handlers -/

/-- The parts of the multipart request the upload handlers look at. -/
structure UploadRequest where
  filename : List Char
  content : List Nat
  version : List Char
  release_notes : List Char
deriving DecidableEq, Repr

/-- What an upload request can come back with. -/
inductive UploadOutcome where
  | noFile
  | invalidType
  | dbError
  | success (unique_filename : List Char) (checksum : List Char)
deriving DecidableEq, Repr

/-- The `file_data` dict an upload handler builds after saving the bytes:
names from `secure_filename` and `generate_unique_filename`, size and
checksum from the file just written at `storage_path`, URLs from the
request's base URL. -/
def uploadFd (fs : Fs) (req : UploadRequest) (timestamp : Nat) (random_str : List Char)
    (base_url : List Char) (uploader_name : List Char) : FileData :=
  let original_filename := secure_filename req.filename
  let unique_filename := generate_unique_filename original_filename timestamp random_str
  let file_type :=
    if original_filename.contains '.' then lowerStr (afterLastDot original_filename)
    else "txt".toList
  let storage_path := storagePathOf unique_filename
  let stored := ((fsWrite fs storage_path req.content) storage_path).getD []
  { filename := unique_filename
    original_filename := original_filename
    file_type := file_type
    file_size := stored.length
    version := req.version
    storage_path := storage_path
    public_url := base_url ++ "file/".toList ++ unique_filename
    raw_url := base_url ++ "raw/".toList ++ unique_filename
    download_url := base_url ++ "download/".toList ++ unique_filename
    release_notes := req.release_notes
    checksum := calculate_checksum stored
    uploader_id := ADMIN_ID
    uploader_name := uploader_name }

/-- The POST body shared by `upload_file` (app.py:1228-1560) and
`api_upload` (app.py:3172-3273): validate the filename, save the bytes,
size and checksum them, register the record, and on a database failure
delete the just-written blob.  `timestamp`/`random_str` feed the storage
name generator, `now` is the database clock, and `fault` is the catalog's
fault point. -/
def uploadCore (db : FileDB) (fs : Fs) (req : UploadRequest) (timestamp : Nat)
    (random_str : List Char) (now : Nat) (base_url : List Char)
    (uploader_name : List Char) (fault : DbFault) : FileDB × Fs × UploadOutcome :=
  if req.filename.isEmpty then (db, fs, .noFile)
  else if ¬ allowed_file req.filename then (db, fs, .invalidType)
  else
    let fd := uploadFd fs req timestamp random_str base_url uploader_name
    let fs1 := fsWrite fs fd.storage_path req.content
    match add_file db fd now fault with
    | (db1, true) => (db1, fs1, .success fd.filename fd.checksum)
    | (db1, false) =>
      (db1, if (fs1 fd.storage_path).isSome then fsDelete fs1 fd.storage_path else fs1,
       .dbError)

/-- The `/upload` POST handler's core (uploader recorded as `Admin`). -/
def upload_file (db : FileDB) (fs : Fs) (req : UploadRequest) (timestamp : Nat)
    (random_str : List Char) (now : Nat) (base_url : List Char) (fault : DbFault) :
    FileDB × Fs × UploadOutcome :=
  uploadCore db fs req timestamp random_str now base_url "Admin".toList fault

/-- The `/api/upload` handler's core (uploader recorded as `API User`). -/
def api_upload (db : FileDB) (fs : Fs) (req : UploadRequest) (timestamp : Nat)
    (random_str : List Char) (now : Nat) (base_url : List Char) (fault : DbFault) :
    FileDB × Fs × UploadOutcome :=
  uploadCore db fs req timestamp random_str now base_url "API User".toList fault

/-- An upload request as seen at the transport boundary. -/
inductive RequestOutcome where
  | entityTooLarge
  | handled (o : UploadOutcome)
deriving DecidableEq, Repr

/-- Modelled from the spec: the size cap is enforced by the web framework
via `app.config['MAX_CONTENT_LENGTH'] = MAX_CONTENT_LENGTH` (app.py:496) —
a request whose payload exceeds the cap is refused with `413 Request
Entity Too Large` before the route handler runs, so neither the storage
root nor the catalog is touched.  That enforcement lives in the framework,
not in the repository source, so it is modelled here as a guard in front
of the handler. -/
def handle_upload_request (db : FileDB) (fs : Fs) (req : UploadRequest) (timestamp : Nat)
    (random_str : List Char) (now : Nat) (base_url : List Char)
    (uploader_name : List Char) (fault : DbFault) : FileDB × Fs × RequestOutcome :=
  if MAX_CONTENT_LENGTH < req.content.length then (db, fs, .entityTooLarge)
  else
    let (db1, fs1, o) := uploadCore db fs req timestamp random_str now base_url uploader_name fault
    (db1, fs1, .handled o)

/-! ## The serving handlers -/

/-- What `/raw/<filename>` and `/download/<filename>` can respond with. -/
inductive ServeOutcome where
  | notFound
  | notFoundOnServer
  | served (bytes : List Nat) (download_name : List Char) (as_attachment : Bool)
deriving DecidableEq, Repr

/-- `raw_file` (app.py:3125-3147): resolve the storage name in the catalog,
check the backing file exists, record the download, and serve the bytes
inline. -/
def raw_file (db : FileDB) (fs : Fs) (filename : List Char) (ip ua : List Char)
    (now : Nat) : FileDB × ServeOutcome :=
  match get_file_by_filename db filename with
  | none => (db, .notFound)
  | some fd =>
    match fs fd.storage_path with
    | none => (db, .notFoundOnServer)
    | some bytes =>
      (record_download db fd.id ip ua now, .served bytes fd.original_filename false)

/-- `download_file` (app.py:3149-3170): as `raw_file`, but served as an
attachment. -/
def download_file (db : FileDB) (fs : Fs) (filename : List Char) (ip ua : List Char)
    (now : Nat) : FileDB × ServeOutcome :=
  match get_file_by_filename db filename with
  | none => (db, .notFound)
  | some fd =>
    match fs fd.storage_path with
    | none => (db, .notFoundOnServer)
    | some bytes =>
      (record_download db fd.id ip ua now, .served bytes fd.original_filename true)

/-! ## Derived accounting notions -/

/-- `record_download` iterated `n` times against the same record. -/
def recordN (n : Nat) (db : FileDB) (file_id : Nat) (ip ua : List Char) (now : Nat) : FileDB :=
  match n with
  | 0 => db
  | k + 1 => record_download (recordN k db file_id ip ua now) file_id ip ua now

/-- The number of `download` access-log rows recorded for a file id. -/
def downloadLogCount (db : FileDB) (file_id : Nat) : Nat :=
  (db.access_logs.filter
    (fun a => a.action == "download".toList && a.file_id == file_id)).length

/-- The order actually produced by `ORDER BY created_at DESC` over a table
scanned in id order: `created_at` descending, ties in ascending id
(insertion) order. -/
def lexNewer (a b : FileRow) : Prop :=
  b.created_at < a.created_at ∨ (a.created_at = b.created_at ∧ a.id ≤ b.id)

/-! ## Sample data for concrete instantiations -/

/-- A sample `file_data` dict. -/
def sampleFileData : FileData :=
  { filename := "17_AbCdEf01.txt".toList
    original_filename := "notes.txt".toList
    file_type := "txt".toList
    file_size := 2
    version := "1.0.0".toList
    storage_path := "uploads/17_AbCdEf01.txt".toList
    public_url := "h/file/17_AbCdEf01.txt".toList
    raw_url := "h/raw/17_AbCdEf01.txt".toList
    download_url := "h/download/17_AbCdEf01.txt".toList
    release_notes := []
    checksum := []
    uploader_id := ADMIN_ID
    uploader_name := "Admin".toList }

/-- An upload request whose payload exceeds the 10 MiB cap by one byte. -/
def oversizedReq : UploadRequest :=
  { filename := "a.txt".toList
    content := List.replicate 10485761 0
    version := "1.0.0".toList
    release_notes := [] }

/-- A sample catalog row. -/
def sampleRow : FileRow :=
  { id := 1
    filename := "17_AbCdEf01.txt".toList
    original_filename := "notes.txt".toList
    file_type := "txt".toList
    file_size := 2
    version := "1.0.0".toList
    storage_path := "uploads/17_AbCdEf01.txt".toList
    public_url := "h/file/17_AbCdEf01.txt".toList
    raw_url := "h/raw/17_AbCdEf01.txt".toList
    download_url := "h/download/17_AbCdEf01.txt".toList
    release_notes := []
    checksum := []
    uploader_id := ADMIN_ID
    uploader_name := "Admin".toList
    created_at := 5
    expires_at := 5 + 365 * 86400
    is_active := true
    download_count := 0
    last_download := none }

/-- Two rows sharing one `created_at` second, inserted as id 1 then id 2. -/
def rowA : FileRow :=
  { sampleRow with id := 1, filename := "100_aaaaaaaa.txt".toList, created_at := 100 }

/-- The second of the two tied rows. -/
def rowB : FileRow :=
  { sampleRow with id := 2, filename := "100_bbbbbbbb.txt".toList, created_at := 100 }

/-- A catalog whose two rows tie on `created_at`. -/
def tieDB : FileDB :=
  { files := [rowA, rowB], file_versions := [], access_logs := [],
    next_file_id := 3, next_version_id := 1, next_log_id := 1 }

/-- A catalog holding `sampleRow` only — with no backing file on disk this
is exactly the dangling-record situation. -/
def sampleDB : FileDB :=
  { files := [sampleRow]
    file_versions := [{ id := 1, filename := "notes.txt".toList, version := "1.0.0".toList,
                        storage_path := "uploads/17_AbCdEf01.txt".toList,
                        raw_url := "h/raw/17_AbCdEf01.txt".toList, created_at := 5 }]
    access_logs := []
    next_file_id := 2
    next_version_id := 2
    next_log_id := 1 }

/-! ## Helper lemmas -/

/-- Reading back the path just written returns the written bytes. -/
theorem fsWrite_read (fs : Fs) (p : List Char) (b : List Nat) :
    fsWrite fs p b p = some b := by
  simp [fsWrite]

/-- Deleting the only path that differs restores the original map. -/
theorem fsDelete_fsWrite (fs : Fs) (p : List Char) (b : List Nat) (h : fs p = none) :
    fsDelete (fsWrite fs p b) p = fs := by
  funext q
  by_cases hq : q = p <;> simp [fsDelete, fsWrite, hq, h.symm]

/-- The 4096-byte read loop visits every byte exactly once, in order. -/
theorem flatten_readChunks (n : Nat) (hn : 0 < n) (l : List α) :
    (readChunks n l).flatten = l := by
  generalize hm : l.length = m
  induction m using Nat.strong_induction_on generalizing l with
  | _ m ih =>
    rw [readChunks]
    by_cases he : l = []
    · subst he; simp
    · have hcond : ¬ (l.isEmpty = true ∨ n = 0) := by
        simp only [List.isEmpty_iff]
        push_neg
        exact ⟨he, by omega⟩
      have hlt : (l.drop n).length < m := by
        subst hm
        have hpos : 0 < l.length := List.length_pos.mpr he
        simp only [List.length_drop]
        omega
      rw [if_neg hcond, List.flatten_cons, ih (l.drop n).length hlt (l.drop n) rfl,
          List.take_append_drop]

/-- Folding `update` over a chunk list feeds the chunks' concatenation. -/
theorem foldl_sha256_update (chunks : List (List Nat)) (acc : List Nat) :
    chunks.foldl sha256_update acc = acc ++ chunks.flatten := by
  induction chunks generalizing acc with
  | nil => simp
  | cons c cs ih => simp [sha256_update, ih]

/-- The chunked streaming digest of `calculate_checksum` is the digest of
the whole byte string. -/
theorem chunked_checksum (content : List Nat) :
    calculate_checksum content = sha256_hexdigest content := by
  unfold calculate_checksum
  rw [foldl_sha256_update, List.nil_append,
      flatten_readChunks 4096 (by norm_num)]

/-- The storage name the upload registers. -/
theorem uploadFd_filename (fs : Fs) (req : UploadRequest) (timestamp : Nat)
    (random_str : List Char) (base_url uploader_name : List Char) :
    (uploadFd fs req timestamp random_str base_url uploader_name).filename =
      generate_unique_filename (secure_filename req.filename) timestamp random_str := rfl

/-- The storage path the upload writes to. -/
theorem uploadFd_storage_path (fs : Fs) (req : UploadRequest) (timestamp : Nat)
    (random_str : List Char) (base_url uploader_name : List Char) :
    (uploadFd fs req timestamp random_str base_url uploader_name).storage_path =
      storagePathOf (generate_unique_filename (secure_filename req.filename)
        timestamp random_str) := rfl

/-- The display name the upload registers. -/
theorem uploadFd_original_filename (fs : Fs) (req : UploadRequest) (timestamp : Nat)
    (random_str : List Char) (base_url uploader_name : List Char) :
    (uploadFd fs req timestamp random_str base_url uploader_name).original_filename =
      secure_filename req.filename := rfl

/-- The checksum is computed over the bytes just written, which are the
request's bytes. -/
theorem uploadFd_checksum (fs : Fs) (req : UploadRequest) (timestamp : Nat)
    (random_str : List Char) (base_url uploader_name : List Char) :
    (uploadFd fs req timestamp random_str base_url uploader_name).checksum =
      calculate_checksum req.content := by
  unfold uploadFd
  simp [fsWrite]

/-- The recorded size is the written payload's byte count. -/
theorem uploadFd_file_size (fs : Fs) (req : UploadRequest) (timestamp : Nat)
    (random_str : List Char) (base_url uploader_name : List Char) :
    (uploadFd fs req timestamp random_str base_url uploader_name).file_size =
      req.content.length := by
  unfold uploadFd
  simp [fsWrite]

/-! ## Claim C10 -/

/-- **C10.** A filename with no `'.'` character fails `allowed_file`, so an
extensionless upload is rejected (as `noFile` when the name is empty,
`invalidType` otherwise) with the catalog and the storage root untouched. -/
theorem extensionless_always_rejected (db : FileDB) (fs : Fs) (req : UploadRequest)
    (timestamp : Nat) (random_str : List Char) (now : Nat) (base_url : List Char)
    (uploader_name : List Char) (fault : DbFault)
    (h : req.filename.contains '.' = false) :
    allowed_file req.filename = false ∧
    uploadCore db fs req timestamp random_str now base_url uploader_name fault =
      (db, fs, if req.filename.isEmpty then UploadOutcome.noFile else UploadOutcome.invalidType) := by
  have ha : allowed_file req.filename = false := by
    unfold allowed_file
    rw [h, Bool.false_and]
  refine ⟨ha, ?_⟩
  by_cases he : req.filename.isEmpty <;> simp [uploadCore, he, ha]

/-- `extensionless_always_rejected` at a concrete extensionless upload. -/
theorem extensionless_always_rejected_witness :
    (("README".toList).contains '.' = false) ∧
    allowed_file "README".toList = false ∧
    uploadCore FileDB.empty Fs.empty
      { filename := "README".toList, content := [1, 2], version := [], release_notes := [] }
      7 "AbCdEf01".toList 7 [] "Admin".toList .noFault =
      (FileDB.empty, Fs.empty, UploadOutcome.invalidType) := by
  have h := extensionless_always_rejected FileDB.empty Fs.empty
    { filename := "README".toList, content := [1, 2], version := [], release_notes := [] }
    7 "AbCdEf01".toList 7 [] "Admin".toList .noFault (by decide)
  exact ⟨by decide, h.1, h.2⟩

/-! ## Claim C4 -/

/-- **C4.** `add_file` inserts exactly one `files` row and, in the same
transaction, exactly one `file_versions` row keyed by the record's
`original_filename`; on any fault neither row is durably committed, so a
`Register` call never makes the two tables diverge. -/
theorem add_file_transactional (db : FileDB) (fd : FileData) (now : Nat) (fault : DbFault) :
    ((add_file db fd now fault).2 = true →
      (add_file db fd now fault).1.files = db.files ++ [fileRowOf db fd now] ∧
      (add_file db fd now fault).1.file_versions = db.file_versions ++ [versionRowOf db fd now] ∧
      (versionRowOf db fd now).filename = fd.original_filename) ∧
    ((add_file db fd now fault).2 = false → (add_file db fd now fault).1 = db) ∧
    (db.files.length = db.file_versions.length →
      (add_file db fd now fault).1.files.length =
        (add_file db fd now fault).1.file_versions.length) := by
  cases fault <;> simp [add_file, versionRowOf]

/-- `add_file_transactional` at a concrete record, on the success path and
on a fault path. -/
theorem add_file_transactional_witness :
    (add_file FileDB.empty sampleFileData 5 .noFault).2 = true ∧
    (add_file FileDB.empty sampleFileData 5 .noFault).1.files.length = 1 ∧
    (add_file FileDB.empty sampleFileData 5 .noFault).1.file_versions.length = 1 ∧
    ((add_file FileDB.empty sampleFileData 5 .noFault).1.file_versions.map
        fun v => v.filename) = ["notes.txt".toList] ∧
    (add_file FileDB.empty sampleFileData 5 .versionsInsertFault).1 = FileDB.empty := by
  have h := add_file_transactional FileDB.empty sampleFileData 5 .noFault
  have hf := add_file_transactional FileDB.empty sampleFileData 5 .versionsInsertFault
  obtain ⟨hok, -, -⟩ := h
  have h1 := hok rfl
  refine ⟨rfl, ?_, ?_, ?_, hf.2.1 rfl⟩
  · rw [h1.1]; rfl
  · rw [h1.2.1]; rfl
  · rw [h1.2.1]; decide

/-! ## Claim C3 -/

/-- **C3.** An upload whose payload exceeds the 10 MiB cap is refused as
`413 Request Entity Too Large` with no file written and no catalog
mutation. -/
theorem oversize_upload_rejected (db : FileDB) (fs : Fs) (req : UploadRequest)
    (timestamp : Nat) (random_str : List Char) (now : Nat) (base_url : List Char)
    (uploader_name : List Char) (fault : DbFault)
    (h : MAX_CONTENT_LENGTH < req.content.length) :
    handle_upload_request db fs req timestamp random_str now base_url uploader_name fault =
      (db, fs, RequestOutcome.entityTooLarge) := by
  simp [handle_upload_request, h]

/-- `oversize_upload_rejected` at a payload one byte over the cap. -/
theorem oversize_upload_rejected_witness :
    MAX_CONTENT_LENGTH < oversizedReq.content.length ∧
    handle_upload_request FileDB.empty Fs.empty oversizedReq 7 "AbCdEf01".toList 7 []
      "Admin".toList .noFault = (FileDB.empty, Fs.empty, RequestOutcome.entityTooLarge) := by
  have h : MAX_CONTENT_LENGTH < oversizedReq.content.length := by
    show MAX_CONTENT_LENGTH < (List.replicate 10485761 0).length
    rw [List.length_replicate]
    norm_num [MAX_CONTENT_LENGTH]
  exact ⟨h, oversize_upload_rejected FileDB.empty Fs.empty oversizedReq 7
    "AbCdEf01".toList 7 [] "Admin".toList .noFault h⟩

/-! ## Claim C5 -/

/-- Filtering commutes with a map that does not change the filtered key. -/
theorem filter_map_of_pres (f : α → α) (p : α → Bool) (h : ∀ x, p (f x) = p x)
    (l : List α) : (l.map f).filter p = (l.filter p).map f := by
  induction l with
  | nil => rfl
  | cons a t ih =>
    by_cases hp : p a = true <;>
      simp [List.filter_cons, hp, h a, ih]

/-- The counter update of `record_download` leaves every id in place. -/
theorem record_download_upd_id (file_id : Nat) (now : Nat) (row : FileRow) :
    ((if row.id = file_id then
        { row with download_count := row.download_count + 1, last_download := some now }
      else row).id == file_id) = (row.id == file_id) := by
  by_cases h : row.id = file_id <;> simp [h]

/-- A single `record_download` call, seen through `WHERE id = ?`: the one
matching row gets its counter bumped and its `last_download` stamped. -/
theorem record_download_filter (db : FileDB) (file_id : Nat) (ip ua : List Char)
    (now : Nat) (r : FileRow)
    (hr : db.files.filter (fun row => row.id == file_id) = [r]) :
    (record_download db file_id ip ua now).files.filter (fun row => row.id == file_id) =
      [{ r with download_count := r.download_count + 1, last_download := some now }] := by
  have hrid : r.id = file_id := by
    have hmem : r ∈ db.files.filter (fun row => row.id == file_id) := by
      rw [hr]; exact List.mem_singleton_self r
    simpa using (List.mem_filter.mp hmem).2
  show (db.files.map _).filter _ = _
  rw [filter_map_of_pres _ _ (record_download_upd_id file_id now), hr]
  simp [hrid]

/-- A single `record_download` call appends exactly one `download` log row
for its id. -/
theorem record_download_log (db : FileDB) (file_id : Nat) (ip ua : List Char) (now : Nat) :
    downloadLogCount (record_download db file_id ip ua now) file_id =
      downloadLogCount db file_id + 1 := by
  unfold downloadLogCount record_download
  simp [List.filter_append]

/-- `recordN` accumulates: counter up by `n`, `n` fresh log rows. -/
theorem recordN_accumulates (n : Nat) (db : FileDB) (file_id : Nat) (ip ua : List Char)
    (now : Nat) (r : FileRow)
    (hr : db.files.filter (fun row => row.id == file_id) = [r]) :
    ((recordN n db file_id ip ua now).files.filter (fun row => row.id == file_id)).map
        (fun row => row.download_count) = [r.download_count + n] ∧
    downloadLogCount (recordN n db file_id ip ua now) file_id =
      downloadLogCount db file_id + n := by
  induction n with
  | zero => simp [recordN, hr]
  | succ k ih =>
    obtain ⟨ih1, ih2⟩ := ih
    have hk : ∃ rk, (recordN k db file_id ip ua now).files.filter
        (fun row => row.id == file_id) = [rk] ∧ rk.download_count = r.download_count + k := by
      cases hfk : (recordN k db file_id ip ua now).files.filter
          (fun row => row.id == file_id) with
      | nil => rw [hfk] at ih1; simp at ih1
      | cons a t =>
        cases t with
        | nil =>
          refine ⟨a, rfl, ?_⟩
          rw [hfk] at ih1
          simpa using ih1
        | cons b u => rw [hfk] at ih1; simp at ih1
    obtain ⟨rk, hfk, hck⟩ := hk
    constructor
    · rw [show recordN (k + 1) db file_id ip ua now =
          record_download (recordN k db file_id ip ua now) file_id ip ua now from rfl,
          record_download_filter _ _ _ _ _ _ hfk]
      simp [hck, Nat.add_assoc]
    · rw [show recordN (k + 1) db file_id ip ua now =
          record_download (recordN k db file_id ip ua now) file_id ip ua now from rfl,
          record_download_log, ih2, Nat.add_assoc]

/-- **C5.** `record_download(id)` bumps that record's `download_count` by
exactly one, stamps `last_download = now`, and appends exactly one
`download` access-log row for the id, all in one state transition; `n`
calls starting from a fresh record (counter `0`, no `download` log rows)
leave `download_count = n` and exactly `n` matching log rows. -/
theorem record_download_accounting (db : FileDB) (file_id : Nat) (ip ua : List Char)
    (now : Nat) (n : Nat) (r : FileRow)
    (hr : db.files.filter (fun row => row.id == file_id) = [r])
    (h0 : r.download_count = 0)
    (hlog : downloadLogCount db file_id = 0) :
    (record_download db file_id ip ua now).files.filter (fun row => row.id == file_id) =
      [{ r with download_count := r.download_count + 1, last_download := some now }] ∧
    downloadLogCount (record_download db file_id ip ua now) file_id =
      downloadLogCount db file_id + 1 ∧
    ((recordN n db file_id ip ua now).files.filter (fun row => row.id == file_id)).map
        (fun row => row.download_count) = [n] ∧
    downloadLogCount (recordN n db file_id ip ua now) file_id = n := by
  obtain ⟨hN1, hN2⟩ := recordN_accumulates n db file_id ip ua now r hr
  refine ⟨record_download_filter db file_id ip ua now r hr,
          record_download_log db file_id ip ua now, ?_, ?_⟩
  · rw [hN1, h0, Nat.zero_add]
  · rw [hN2, hlog, Nat.zero_add]

/-- `record_download_accounting` at a concrete fresh record, three calls. -/
theorem record_download_accounting_witness :
    sampleDB.files.filter (fun row => row.id == 1) = [sampleRow] ∧
    downloadLogCount sampleDB 1 = 0 ∧
    ((recordN 3 sampleDB 1 "ip".toList "ua".toList 9).files.filter
        (fun row => row.id == 1)).map (fun row => row.download_count) = [3] ∧
    downloadLogCount (recordN 3 sampleDB 1 "ip".toList "ua".toList 9) 1 = 3 := by
  have h := record_download_accounting sampleDB 1 "ip".toList "ua".toList 9 3 sampleRow
    (by decide) (by decide) (by decide)
  exact ⟨by decide, by decide, h.2.2.1, h.2.2.2⟩

/-! ## Claim C9 -/

/-- **C9.** A raw or download request whose storage name resolves to no
catalog record, or whose record's backing file is missing, answers 404 and
leaves the catalog (counters, `last_download`, access log) untouched. -/
theorem not_found_no_side_effects (db : FileDB) (fs : Fs) (name ip ua : List Char)
    (now : Nat) :
    (get_file_by_filename db name = none →
      raw_file db fs name ip ua now = (db, ServeOutcome.notFound) ∧
      download_file db fs name ip ua now = (db, ServeOutcome.notFound)) ∧
    (∀ fd, get_file_by_filename db name = some fd → fs fd.storage_path = none →
      raw_file db fs name ip ua now = (db, ServeOutcome.notFoundOnServer) ∧
      download_file db fs name ip ua now = (db, ServeOutcome.notFoundOnServer)) := by
  constructor
  · intro h
    constructor <;> simp [raw_file, download_file, h]
  · intro fd h hfs
    constructor <;> simp [raw_file, download_file, h, hfs]

/-- `not_found_no_side_effects` at an unknown name and at a dangling
record. -/
theorem not_found_no_side_effects_witness :
    (get_file_by_filename sampleDB "nope.txt".toList = none ∧
      raw_file sampleDB Fs.empty "nope.txt".toList "ip".toList "ua".toList 9 =
        (sampleDB, ServeOutcome.notFound)) ∧
    (get_file_by_filename sampleDB "17_AbCdEf01.txt".toList = some sampleRow ∧
      Fs.empty sampleRow.storage_path = none ∧
      download_file sampleDB Fs.empty "17_AbCdEf01.txt".toList "ip".toList "ua".toList 9 =
        (sampleDB, ServeOutcome.notFoundOnServer)) := by
  have h1 := (not_found_no_side_effects sampleDB Fs.empty "nope.txt".toList
    "ip".toList "ua".toList 9).1 (by decide)
  have h2 := (not_found_no_side_effects sampleDB Fs.empty "17_AbCdEf01.txt".toList
    "ip".toList "ua".toList 9).2 sampleRow (by decide) rfl
  exact ⟨⟨by decide, h1.1⟩, ⟨by decide, rfl, h2.2⟩⟩

/-! ## Claim C8 -/

/-- A name that passes `allowed_file` contains a dot, hence is nonempty. -/
theorem allowed_file_ne_empty (filename : List Char) (h : allowed_file filename = true) :
    filename.isEmpty = false := by
  cases filename with
  | nil => simp [allowed_file] at h
  | cons a t => rfl

/-- **C8.** When the blob has been written but `add_file` fails, the upload
handler deletes the just-written blob before returning the error: the
request leaves no catalog row and no orphaned file. -/
theorem register_failure_cleans_blob (db : FileDB) (fs : Fs) (req : UploadRequest)
    (timestamp : Nat) (random_str : List Char) (now : Nat) (base_url : List Char)
    (uploader_name : List Char) (fault : DbFault)
    (hfault : fault ≠ DbFault.noFault)
    (hallow : allowed_file req.filename = true)
    (hfresh : fs (storagePathOf (generate_unique_filename (secure_filename req.filename)
        timestamp random_str)) = none) :
    uploadCore db fs req timestamp random_str now base_url uploader_name fault =
      (db, fs, UploadOutcome.dbError) := by
  have hemp := allowed_file_ne_empty req.filename hallow
  unfold uploadCore
  rw [hemp]
  simp only [Bool.false_eq_true, if_false, hallow, Bool.true_eq_false, not_true,
    Bool.not_true]
  cases fault with
  | noFault => exact absurd rfl hfault
  | filesInsertFault =>
    simp only [add_file, fsWrite_read, Option.isSome_some, if_true, uploadFd_storage_path]
    rw [fsDelete_fsWrite fs _ _ hfresh]
  | versionsInsertFault =>
    simp only [add_file, fsWrite_read, Option.isSome_some, if_true, uploadFd_storage_path]
    rw [fsDelete_fsWrite fs _ _ hfresh]
  | commitFault =>
    simp only [add_file, fsWrite_read, Option.isSome_some, if_true, uploadFd_storage_path]
    rw [fsDelete_fsWrite fs _ _ hfresh]

/-- On the fault-free path a validated upload reduces to: register the
built record, keep the written blob, report success. -/
theorem uploadCore_noFault (db : FileDB) (fs : Fs) (req : UploadRequest) (timestamp : Nat)
    (random_str : List Char) (now : Nat) (base_url uploader_name : List Char)
    (hallow : allowed_file req.filename = true) :
    uploadCore db fs req timestamp random_str now base_url uploader_name .noFault =
      ((add_file db (uploadFd fs req timestamp random_str base_url uploader_name) now
          .noFault).1,
       fsWrite fs (uploadFd fs req timestamp random_str base_url uploader_name).storage_path
         req.content,
       UploadOutcome.success
         (uploadFd fs req timestamp random_str base_url uploader_name).filename
         (uploadFd fs req timestamp random_str base_url uploader_name).checksum) := by
  have hemp := allowed_file_ne_empty req.filename hallow
  unfold uploadCore
  rw [hemp]
  simp [hallow, add_file]

/-- `register_failure_cleans_blob` at a concrete failing registration. -/
theorem register_failure_cleans_blob_witness :
    allowed_file "a.txt".toList = true ∧
    uploadCore FileDB.empty Fs.empty
      { filename := "a.txt".toList, content := [104, 105], version := "1.0.0".toList,
        release_notes := [] }
      7 "AbCdEf01".toList 7 "h/".toList "Admin".toList .commitFault =
      (FileDB.empty, Fs.empty, UploadOutcome.dbError) := by
  refine ⟨by decide, register_failure_cleans_blob FileDB.empty Fs.empty _ 7
    "AbCdEf01".toList 7 "h/".toList "Admin".toList .commitFault
    (by intro h; cases h) (by decide) rfl⟩

/-! ## Claim C2 -/

/-- Rejection shape of an upload that fails the extension check. -/
theorem uploadCore_not_allowed (db : FileDB) (fs : Fs) (req : UploadRequest)
    (timestamp : Nat) (random_str : List Char) (now : Nat) (base_url : List Char)
    (uploader_name : List Char) (fault : DbFault)
    (ha : allowed_file req.filename = false) :
    uploadCore db fs req timestamp random_str now base_url uploader_name fault =
      (db, fs, if req.filename.isEmpty then UploadOutcome.noFile
               else UploadOutcome.invalidType) := by
  by_cases he : req.filename.isEmpty <;> simp [uploadCore, he, ha]

/-- **C2.** An upload is accepted exactly when the substring after the last
`'.'`, lower-cased, is one of the ten allowed extensions: a filename
outside the allow-list is turned away with nothing written and nothing
registered, and any letter-casing of an allowed extension passes the check
and (absent faults) yields a successful registration. -/
theorem extension_allow_list_gate (db : FileDB) (fs : Fs) (req : UploadRequest)
    (timestamp : Nat) (random_str : List Char) (now : Nat) (base_url : List Char)
    (uploader_name : List Char) (fault : DbFault) :
    (allowed_file req.filename = false →
      uploadCore db fs req timestamp random_str now base_url uploader_name fault =
        (db, fs, if req.filename.isEmpty then UploadOutcome.noFile
                 else UploadOutcome.invalidType)) ∧
    (allowed_file req.filename = true ↔
      req.filename.contains '.' = true ∧
        (lowerStr (afterLastDot req.filename) = "txt".toList ∨
         lowerStr (afterLastDot req.filename) = "json".toList ∨
         lowerStr (afterLastDot req.filename) = "conf".toList ∨
         lowerStr (afterLastDot req.filename) = "config".toList ∨
         lowerStr (afterLastDot req.filename) = "yaml".toList ∨
         lowerStr (afterLastDot req.filename) = "yml".toList ∨
         lowerStr (afterLastDot req.filename) = "xml".toList ∨
         lowerStr (afterLastDot req.filename) = "ini".toList ∨
         lowerStr (afterLastDot req.filename) = "cfg".toList ∨
         lowerStr (afterLastDot req.filename) = "properties".toList)) ∧
    (allowed_file req.filename = true →
      (uploadCore db fs req timestamp random_str now base_url uploader_name
          .noFault).2.2 =
        UploadOutcome.success
          (generate_unique_filename (secure_filename req.filename) timestamp random_str)
          (calculate_checksum req.content)) := by
  refine ⟨uploadCore_not_allowed db fs req timestamp random_str now base_url
    uploader_name fault, ?_, ?_⟩
  · unfold allowed_file ALLOWED_EXTENSIONS
    simp
  · intro hallow
    rw [uploadCore_noFault db fs req timestamp random_str now base_url uploader_name
      hallow, uploadFd_filename, uploadFd_checksum]

/-- `extension_allow_list_gate` at an upper-cased allowed extension and at
a disallowed one. -/
theorem extension_allow_list_gate_witness :
    allowed_file "b.JSON".toList = true ∧
    (uploadCore FileDB.empty Fs.empty
        { filename := "b.JSON".toList, content := [104, 105], version := "1.0.0".toList,
          release_notes := [] }
        7 "AbCdEf01".toList 7 "h/".toList "Admin".toList .noFault).2.2 =
      UploadOutcome.success
        (generate_unique_filename (secure_filename "b.JSON".toList) 7 "AbCdEf01".toList)
        (calculate_checksum [104, 105]) ∧
    allowed_file "evil.exe".toList = false ∧
    uploadCore FileDB.empty Fs.empty
        { filename := "evil.exe".toList, content := [104, 105], version := "1.0.0".toList,
          release_notes := [] }
        7 "AbCdEf01".toList 7 "h/".toList "Admin".toList .noFault =
      (FileDB.empty, Fs.empty, UploadOutcome.invalidType) := by
  have hyes := extension_allow_list_gate FileDB.empty Fs.empty
    { filename := "b.JSON".toList, content := [104, 105], version := "1.0.0".toList,
      release_notes := [] }
    7 "AbCdEf01".toList 7 "h/".toList "Admin".toList .noFault
  have hno := extension_allow_list_gate FileDB.empty Fs.empty
    { filename := "evil.exe".toList, content := [104, 105], version := "1.0.0".toList,
      release_notes := [] }
    7 "AbCdEf01".toList 7 "h/".toList "Admin".toList .noFault
  refine ⟨by decide, hyes.2.2 (by decide), by decide, ?_⟩
  have h := hno.1 (by decide)
  simpa using h

/-! ## Claim C1 -/

/-- Serving a resolvable name whose backing file is present: record the
download and return the stored bytes under the display name. -/
theorem raw_file_found (db : FileDB) (fs : Fs) (name ip ua : List Char) (now : Nat)
    (r : FileRow) (b : List Nat)
    (hr : get_file_by_filename db name = some r)
    (hb : fs r.storage_path = some b) :
    raw_file db fs name ip ua now =
      (record_download db r.id ip ua now, ServeOutcome.served b r.original_filename false) := by
  unfold raw_file
  rw [hr]
  simp [hb]

/-- **C1.** A valid upload stores the request's bytes under the generated
storage name and fetching them back through `/raw/<storage name>` serves
exactly those bytes; the checksum recorded in the catalog equals the
SHA-256 hex digest of the content, and the 4096-byte streamed checksum
computation agrees with the digest of the whole byte string. -/
theorem upload_then_raw_roundtrip (db : FileDB) (fs : Fs) (req : UploadRequest)
    (timestamp : Nat) (random_str : List Char) (now : Nat)
    (base_url uploader_name ip ua : List Char) (now2 : Nat)
    (hallow : allowed_file req.filename = true)
    (hfresh : get_file_by_filename db
      (generate_unique_filename (secure_filename req.filename) timestamp random_str) =
        none) :
    (uploadCore db fs req timestamp random_str now base_url uploader_name
        .noFault).2.2 =
      UploadOutcome.success
        (generate_unique_filename (secure_filename req.filename) timestamp random_str)
        (sha256_hexdigest req.content) ∧
    (raw_file (uploadCore db fs req timestamp random_str now base_url uploader_name
          .noFault).1
        (uploadCore db fs req timestamp random_str now base_url uploader_name
          .noFault).2.1
        (generate_unique_filename (secure_filename req.filename) timestamp random_str)
        ip ua now2).2 =
      ServeOutcome.served req.content (secure_filename req.filename) false ∧
    (∃ r, get_file_by_filename
        (uploadCore db fs req timestamp random_str now base_url uploader_name
          .noFault).1
        (generate_unique_filename (secure_filename req.filename) timestamp random_str) =
          some r ∧
      r.checksum = sha256_hexdigest req.content ∧
      r.file_size = req.content.length) ∧
    calculate_checksum req.content = sha256_hexdigest req.content := by
  have hcore := uploadCore_noFault db fs req timestamp random_str now base_url
    uploader_name hallow
  set fd := uploadFd fs req timestamp random_str base_url uploader_name with hfd
  set u := generate_unique_filename (secure_filename req.filename) timestamp random_str
    with hu
  have hfdname : fd.filename = u := uploadFd_filename _ _ _ _ _ _
  have hlk : get_file_by_filename (add_file db fd now .noFault).1 u =
      some (fileRowOf db fd now) := by
    unfold get_file_by_filename add_file
    rw [List.find?_append]
    unfold get_file_by_filename at hfresh
    rw [hfresh]
    simp [fileRowOf, hfdname]
  refine ⟨?_, ?_, ?_, chunked_checksum req.content⟩
  · rw [hcore, hfdname, uploadFd_checksum, chunked_checksum]
  · rw [hcore]
    show (raw_file (add_file db fd now .noFault).1
        (fsWrite fs fd.storage_path req.content) u ip ua now2).2 =
      ServeOutcome.served req.content (secure_filename req.filename) false
    rw [raw_file_found _ _ _ ip ua now2 (fileRowOf db fd now) req.content hlk
      (fsWrite_read fs fd.storage_path req.content)]
    rfl
  · refine ⟨fileRowOf db fd now, by rw [hcore]; exact hlk, ?_, ?_⟩
    · show fd.checksum = sha256_hexdigest req.content
      rw [hfd, uploadFd_checksum, chunked_checksum]
    · show fd.file_size = req.content.length
      rw [hfd, uploadFd_file_size]

/-- `upload_then_raw_roundtrip` at a concrete two-byte upload. -/
theorem upload_then_raw_roundtrip_witness :
    allowed_file "a.txt".toList = true ∧
    (raw_file (uploadCore FileDB.empty Fs.empty
          { filename := "a.txt".toList, content := [104, 105], version := "1.0.0".toList,
            release_notes := [] }
          7 "AbCdEf01".toList 7 "h/".toList "Admin".toList .noFault).1
        (uploadCore FileDB.empty Fs.empty
          { filename := "a.txt".toList, content := [104, 105], version := "1.0.0".toList,
            release_notes := [] }
          7 "AbCdEf01".toList 7 "h/".toList "Admin".toList .noFault).2.1
        (generate_unique_filename (secure_filename "a.txt".toList) 7 "AbCdEf01".toList)
        "ip".toList "ua".toList 9).2 =
      ServeOutcome.served [104, 105] (secure_filename "a.txt".toList) false ∧
    calculate_checksum [104, 105] = sha256_hexdigest [104, 105] := by
  have h := upload_then_raw_roundtrip FileDB.empty Fs.empty
    { filename := "a.txt".toList, content := [104, 105], version := "1.0.0".toList,
      release_notes := [] }
    7 "AbCdEf01".toList 7 "h/".toList "Admin".toList "ip".toList "ua".toList 9
    (by decide) rfl
  exact ⟨by decide, h.2.1, h.2.2.2⟩

/-! ## Claim C6 -/

/-- `likeMatch` on the empty pattern. -/
theorem likeMatch_nil (s : List Char) : likeMatch [] s = s.isEmpty := rfl

/-- A leading `%` tries the rest of the pattern on every suffix. -/
theorem likeMatch_pct (ps : List Char) (s : List Char) :
    likeMatch ('%' :: ps) s = s.tails.any (fun t => likeMatch ps t) := by
  simp [likeMatch]

/-- An ordinary pattern character never matches the empty string. -/
theorem likeMatch_char_nil (p : Char) (hp : p ≠ '%') (ps : List Char) :
    likeMatch (p :: ps) [] = false := by
  simp [likeMatch, hp]

/-- An ordinary pattern character matches one character up to ASCII case. -/
theorem likeMatch_char_cons (p : Char) (hp : p ≠ '%') (hp2 : p ≠ '_') (ps : List Char)
    (c : Char) (t : List Char) :
    likeMatch (p :: ps) (c :: t) =
      (decide (lowerChar p = lowerChar c) && likeMatch ps t) := by
  simp [likeMatch, hp, hp2]

/-- A leading `%` matches exactly when some suffix matches the rest. -/
theorem likeMatch_pct_iff (ps : List Char) (s : List Char) :
    likeMatch ('%' :: ps) s = true ↔ ∃ t, t <:+ s ∧ likeMatch ps t = true := by
  rw [likeMatch_pct, List.any_eq_true]
  constructor
  · rintro ⟨t, ht, hm⟩
    exact ⟨t, (List.mem_tails t s).mp ht, hm⟩
  · rintro ⟨t, ht, hm⟩
    exact ⟨t, (List.mem_tails t s).mpr ht, hm⟩

/-- The pattern `%` alone matches every string. -/
theorem likeMatch_pct_all (s : List Char) : likeMatch ['%'] s = true :=
  (likeMatch_pct_iff [] s).mpr ⟨[], ⟨s, List.append_nil s⟩, rfl⟩

/-- A wildcard-free pattern followed by `%` matches exactly the strings
whose lower-casing starts with the pattern's lower-casing. -/
theorem likeMatch_plain_pct :
    ∀ q : List Char, '%' ∉ q → '_' ∉ q →
      ∀ s : List Char, (likeMatch (q ++ ['%']) s = true ↔ lowerStr q <+: lowerStr s) := by
  intro q
  induction q with
  | nil =>
    intro _ _ s
    rw [List.nil_append, likeMatch_pct_all]
    exact ⟨fun _ => ⟨lowerStr s, rfl⟩, fun _ => rfl⟩
  | cons a q ih =>
    intro h1 h2 s
    have ha1 : a ≠ '%' := fun h => h1 (h ▸ List.mem_cons_self a q)
    have ha2 : a ≠ '_' := fun h => h2 (h ▸ List.mem_cons_self a q)
    have hq1 : '%' ∉ q := fun h => h1 (List.mem_cons_of_mem a h)
    have hq2 : '_' ∉ q := fun h => h2 (List.mem_cons_of_mem a h)
    cases s with
    | nil =>
      rw [List.cons_append, likeMatch_char_nil a ha1,
          show lowerStr (a :: q) = lowerChar a :: lowerStr q from rfl,
          show lowerStr ([] : List Char) = [] from rfl]
      simp
    | cons c t =>
      rw [List.cons_append, likeMatch_char_cons a ha1 ha2, Bool.and_eq_true,
          decide_eq_true_eq,
          show lowerStr (a :: q) = lowerChar a :: lowerStr q from rfl,
          show lowerStr (c :: t) = lowerChar c :: lowerStr t from rfl,
          List.cons_prefix_cons]
      exact and_congr Iff.rfl (ih hq1 hq2 t)

/-- Every suffix of a lower-cased string is the lower-casing of a suffix. -/
theorem exists_suffix_map_lower :
    ∀ s t' : List Char, t' <:+ lowerStr s → ∃ t, t <:+ s ∧ t' = lowerStr t := by
  intro s
  induction s with
  | nil =>
    intro t' h
    rw [show lowerStr ([] : List Char) = [] from rfl, List.suffix_nil] at h
    exact ⟨[], List.suffix_rfl, h⟩
  | cons c s ih =>
    intro t' h
    rw [show lowerStr (c :: s) = lowerChar c :: lowerStr s from rfl,
        List.suffix_cons_iff] at h
    rcases h with h | h
    · exact ⟨c :: s, List.suffix_rfl, h⟩
    · obtain ⟨t, ht, rfl⟩ := ih t' h
      exact ⟨t, ht.trans (List.suffix_cons c s), rfl⟩

/-- On wildcard-free queries, the SQL pattern `f'%{q}%'` is exactly
case-insensitive substring containment. -/
theorem likeMatch_pctPat_eq_containsCI (q s : List Char) (h1 : '%' ∉ q) (h2 : '_' ∉ q) :
    likeMatch (pctPat q) s = containsCI q s := by
  rw [Bool.eq_iff_iff]
  unfold pctPat containsCI
  rw [decide_eq_true_eq, likeMatch_pct_iff]
  constructor
  · rintro ⟨t, ht, hm⟩
    exact List.infix_iff_prefix_suffix.mpr
      ⟨lowerStr t, (likeMatch_plain_pct q h1 h2 t).mp hm, List.IsSuffix.map lowerChar ht⟩
  · intro h
    obtain ⟨t', hp, hs⟩ := List.infix_iff_prefix_suffix.mp h
    obtain ⟨t, ht, rfl⟩ := exists_suffix_map_lower s t' hs
    exact ⟨t, ht, (likeMatch_plain_pct q h1 h2 t).mpr hp⟩

/-- The empty query is contained in every field. -/
theorem containsCI_nil (s : List Char) : containsCI [] s = true := by
  unfold containsCI
  rw [decide_eq_true_eq]
  exact List.infix_iff_prefix_suffix.mpr ⟨lowerStr s, ⟨lowerStr s, rfl⟩, List.suffix_rfl⟩

/-- **C6 (counterexample).** The claim fails as stated: the query is spliced
into `LIKE '%...%'` with its wildcards live, so `Search("%")` returns a
record that does not contain `'%'` as a substring of any searched field. -/
theorem search_files_wildcard_counterexample :
    search_files sampleDB "%".toList = [sampleRow] ∧
    containsCI "%".toList sampleRow.original_filename = false ∧
    containsCI "%".toList sampleRow.version = false ∧
    containsCI "%".toList sampleRow.release_notes = false := by
  refine ⟨by decide, by decide, by decide, by decide⟩

/-- **C6 (amended).** For every query free of the SQL `LIKE` wildcards `%`
and `_`, `search_files` returns exactly the `is_active` records with the
query as a case-insensitive substring of `original_filename`, `version`,
or `release_notes`, ordered `created_at`-descending; the empty query keeps
every active record. -/
theorem search_files_spec (db : FileDB) (q : List Char) (r : FileRow)
    (h1 : '%' ∉ q) (h2 : '_' ∉ q) :
    (r ∈ search_files db q ↔
      r ∈ db.files ∧ r.is_active = true ∧
        (containsCI q r.original_filename = true ∨
         containsCI q r.version = true ∨
         containsCI q r.release_notes = true)) ∧
    (search_files db q).Sorted newerRel ∧
    (q = [] → (r ∈ search_files db q ↔ r ∈ db.files ∧ r.is_active = true)) := by
  have hmem : r ∈ search_files db q ↔ r ∈ db.files ∧ searchPred q r = true := by
    unfold search_files
    rw [(List.perm_insertionSort newerRel _).mem_iff, List.mem_filter]
  have hpred : searchPred q r = true ↔
      (r.is_active = true ∧
        (containsCI q r.original_filename = true ∨
         containsCI q r.version = true ∨
         containsCI q r.release_notes = true)) := by
    unfold searchPred
    rw [likeMatch_pctPat_eq_containsCI q r.original_filename h1 h2,
        likeMatch_pctPat_eq_containsCI q r.version h1 h2,
        likeMatch_pctPat_eq_containsCI q r.release_notes h1 h2]
    simp [Bool.and_eq_true, Bool.or_eq_true, or_assoc]
  have hiff : r ∈ search_files db q ↔
      r ∈ db.files ∧ r.is_active = true ∧
        (containsCI q r.original_filename = true ∨
         containsCI q r.version = true ∨
         containsCI q r.release_notes = true) := by
    rw [hmem, hpred]
  refine ⟨hiff, List.sorted_insertionSort newerRel _, ?_⟩
  intro hq
  subst hq
  rw [hiff]
  simp [containsCI_nil]

/-- `search_files_spec` at a concrete catalog and an upper-cased query. -/
theorem search_files_spec_witness :
    ('%' ∉ "OTE".toList ∧ '_' ∉ "OTE".toList) ∧
    (sampleRow ∈ search_files sampleDB "OTE".toList ↔
      sampleRow ∈ sampleDB.files ∧ sampleRow.is_active = true ∧
        (containsCI "OTE".toList sampleRow.original_filename = true ∨
         containsCI "OTE".toList sampleRow.version = true ∨
         containsCI "OTE".toList sampleRow.release_notes = true)) ∧
    sampleRow ∈ search_files sampleDB "OTE".toList := by
  have h := search_files_spec sampleDB "OTE".toList sampleRow (by decide) (by decide)
  exact ⟨⟨by decide, by decide⟩, h.1, by decide⟩

/-! ## Claim C7 -/

/-- `lexNewer` refines the `ORDER BY` key. -/
theorem lexNewer_le (a b : FileRow) (h : lexNewer a b) : b.created_at ≤ a.created_at := by
  rcases h with h | ⟨h, _⟩ <;> omega

/-- A key bound plus an id bound give `lexNewer`. -/
theorem lexNewer_of_le (a b : FileRow) (hc : b.created_at ≤ a.created_at)
    (hid : a.id ≤ b.id) : lexNewer a b := by
  rcases Nat.lt_or_ge b.created_at a.created_at with h | h
  · exact Or.inl h
  · exact Or.inr ⟨by omega, hid⟩

/-- Inserting a row whose id is below everything in a `lexNewer`-sorted
list keeps the list `lexNewer`-sorted. -/
theorem orderedInsert_lex (a : FileRow) :
    ∀ l : List FileRow, l.Pairwise lexNewer → (∀ x ∈ l, a.id ≤ x.id) →
      (l.orderedInsert newerRel a).Pairwise lexNewer := by
  intro l
  induction l with
  | nil =>
    intro _ _
    simp [List.orderedInsert]
  | cons y l ih =>
    intro hp hid
    rw [List.pairwise_cons] at hp
    obtain ⟨hy, hl⟩ := hp
    rw [List.orderedInsert]
    by_cases h : newerRel a y
    · rw [if_pos h]
      rw [List.pairwise_cons]
      refine ⟨?_, List.pairwise_cons.mpr ⟨hy, hl⟩⟩
      intro z hz
      rcases List.mem_cons.mp hz with rfl | hz2
      · exact lexNewer_of_le a z h (hid z hz)
      · have hzc : z.created_at ≤ a.created_at :=
          Nat.le_trans (lexNewer_le y z (hy z hz2)) h
        exact lexNewer_of_le a z hzc (hid z hz)
    · rw [if_neg h]
      have hyc : a.created_at < y.created_at := by
        unfold newerRel at h
        omega
      rw [List.pairwise_cons]
      refine ⟨?_, ih hl (fun x hx => hid x (List.mem_cons_of_mem y hx))⟩
      intro w hw
      rcases (List.mem_orderedInsert newerRel).mp hw with rfl | hw2
      · exact Or.inl hyc
      · exact hy w hw2

/-- The stable sort of an id-ascending table by `created_at` descending is
`lexNewer`-sorted: ties stay in insertion (ascending id) order. -/
theorem insertionSort_stable_lex :
    ∀ l : List FileRow, l.Pairwise (fun a b => a.id < b.id) →
      (l.insertionSort newerRel).Pairwise lexNewer := by
  intro l
  induction l with
  | nil =>
    intro _
    simp [List.insertionSort]
  | cons a l ih =>
    intro hp
    rw [List.pairwise_cons] at hp
    obtain ⟨ha, hl⟩ := hp
    rw [List.insertionSort]
    exact orderedInsert_lex a _ (ih hl)
      (fun x hx => Nat.le_of_lt (ha x ((List.perm_insertionSort newerRel l).subset hx)))

/-- **C7 (counterexample).** The claim's tie-break is wrong: two rows with
equal `created_at` come back in insertion order (ascending id), not id
descending. -/
theorem get_all_files_tie_counterexample :
    get_all_files tieDB = [rowA, rowB] ∧
    rowA.created_at = rowB.created_at ∧
    rowA.id < rowB.id ∧
    get_all_files tieDB ≠ [rowB, rowA] := by
  refine ⟨by decide, by decide, by decide, by decide⟩

/-- **C7 (amended).** `get_all_files` returns all records ordered by
`created_at` descending; rows tying on `created_at` keep their insertion
(ascending id) order. -/
theorem get_all_files_ordering (db : FileDB)
    (hids : db.files.Pairwise (fun a b => a.id < b.id)) :
    List.Perm (get_all_files db) db.files ∧
    (get_all_files db).Sorted newerRel ∧
    (get_all_files db).Pairwise lexNewer := by
  exact ⟨List.perm_insertionSort newerRel db.files,
    List.sorted_insertionSort newerRel db.files,
    insertionSort_stable_lex db.files hids⟩

/-- `get_all_files_ordering` at the two-row tied catalog. -/
theorem get_all_files_ordering_witness :
    tieDB.files.Pairwise (fun a b => a.id < b.id) ∧
    List.Perm (get_all_files tieDB) tieDB.files ∧
    (get_all_files tieDB).Pairwise lexNewer := by
  have h := get_all_files_ordering tieDB (by decide)
  exact ⟨by decide, h.1, h.2.2⟩

end Update
